import Mathlib

/-!
# Verification of the rs-renderer rasterization pipeline

Shallow embedding of the rendering pipeline of the `rs-renderer` repository
(framebuffer, rasterizer, clipper, fragment shaders, renderer), together with
theorems settling the frozen claims about it.

Modelling conventions:

* Finite `f32` values are modelled exactly as rationals (`ℚ`); floating-point
  rounding is idealized away, and decimal literals of the source denote the
  corresponding rational.
* `f32::sqrt` is modelled by `fsqrt`, which is exact on rational perfect
  squares and an integer-precision approximation elsewhere (just as `f32`'s
  square root is itself an approximation); the only properties used in proofs
  are its sign properties, which agree with `f32`.
* A division whose divisor is zero produces a non-finite `f32` value
  (`inf`/`nan`) in the source; every such value fails the framebuffer's depth
  gate `depth >= 0.0 && depth <= 1.0`.  Where this matters
  (`interpolate_depth`) the model returns `Option ℚ` with `none` standing for
  the non-finite outcome, and the pixel-write step rejects `none` exactly as
  the gate rejects non-finite depths.
* Buffers (`Vec<_>`) are modelled as `List`s indexed by `y * width + x`,
  reads by `List.getD` and writes by `List.set`.
-/

namespace RsRenderer

/-- 2-D vector of rationals, modelling cgmath `Vector2<f32>`. -/
structure Vec2 where
  x : ℚ
  y : ℚ
deriving DecidableEq

/-- 3-D vector of rationals, modelling cgmath `Vector3<f32>`. -/
structure Vec3 where
  x : ℚ
  y : ℚ
  z : ℚ
deriving DecidableEq

/-- 4-D vector of rationals, modelling cgmath `Vector4<f32>`. -/
structure Vec4 where
  x : ℚ
  y : ℚ
  z : ℚ
  w : ℚ
deriving DecidableEq

/-- Componentwise sum of 2-D vectors. -/
def add2 (a b : Vec2) : Vec2 := ⟨a.x + b.x, a.y + b.y⟩

/-- Componentwise difference of 2-D vectors. -/
def sub2 (a b : Vec2) : Vec2 := ⟨a.x - b.x, a.y - b.y⟩

/-- Scalar multiple of a 2-D vector (cgmath `v * s`). -/
def scale2 (s : ℚ) (a : Vec2) : Vec2 := ⟨a.x * s, a.y * s⟩

/-- Dot product of 2-D vectors (cgmath `dot`). -/
def dot2 (a b : Vec2) : ℚ := a.x * b.x + a.y * b.y

/-- Componentwise sum of 3-D vectors. -/
def add3 (a b : Vec3) : Vec3 := ⟨a.x + b.x, a.y + b.y, a.z + b.z⟩

/-- Componentwise difference of 3-D vectors. -/
def sub3 (a b : Vec3) : Vec3 := ⟨a.x - b.x, a.y - b.y, a.z - b.z⟩

/-- Componentwise negation of a 3-D vector. -/
def neg3 (a : Vec3) : Vec3 := ⟨-a.x, -a.y, -a.z⟩

/-- Scalar multiple of a 3-D vector (cgmath `v * s`). -/
def scale3 (s : ℚ) (a : Vec3) : Vec3 := ⟨a.x * s, a.y * s, a.z * s⟩

/-- Dot product of 3-D vectors (cgmath `dot` / `InnerSpace::dot`). -/
def dot3 (a b : Vec3) : ℚ := a.x * b.x + a.y * b.y + a.z * b.z

/-- Cross product of 3-D vectors (cgmath `Vector3::cross`). -/
def cross3 (a b : Vec3) : Vec3 :=
  ⟨a.y * b.z - a.z * b.y, a.z * b.x - a.x * b.z, a.x * b.y - a.y * b.x⟩

/-- Componentwise product of 3-D vectors (cgmath `ElementWise::mul_element_wise`). -/
def mulew3 (a b : Vec3) : Vec3 := ⟨a.x * b.x, a.y * b.y, a.z * b.z⟩

/-- cgmath `Vector3::extend`: append a fourth component. -/
def extend3 (a : Vec3) (w : ℚ) : Vec4 := ⟨a.x, a.y, a.z, w⟩

/-- cgmath `Vector4::truncate`: drop the fourth component. -/
def truncate4 (a : Vec4) : Vec3 := ⟨a.x, a.y, a.z⟩

/-- Newton iteration for the integer square root, with explicit fuel so that
it is structurally recursive (and hence evaluates inside the kernel). -/
def isqrtIter : ℕ → ℕ → ℕ → ℕ
  | 0, _, guess => guess
  | fuel + 1, n, guess =>
    let next := (guess + n / guess) / 2
    if next < guess then isqrtIter fuel n next else guess

/-- Integer square root (floor of the real square root; in particular exact
on perfect squares) by Newton iteration from above. -/
def isqrt (n : ℕ) : ℕ :=
  if n ≤ 1 then n else isqrtIter n n (n / 2 + 1)

/-- Model of `f32::sqrt` on the rational model of floats: exact on rational
perfect squares (`fsqrt (9/4) = 3/2`), an integer-precision underapproximation
elsewhere, `0` on nonpositive input (where `f32` gives `nan`, which compares
false everywhere, as `0` does against negatives).  Like `f32`'s square root
it is an approximation; no theorem below relies on more than its value at
concrete inputs. -/
def fsqrt (q : ℚ) : ℚ :=
  if q ≤ 0 then 0 else (isqrt (q.num.toNat * q.den) : ℚ) / (q.den : ℚ)

/-- cgmath `InnerSpace::normalize` for `Vector3<f32>`: divide by the magnitude
`sqrt (dot v v)`.  For the zero vector the source produces `nan` components
(which compare false everywhere); the model produces `0` components, which
compare the same way in every comparison the pipeline performs. -/
def normalize3 (v : Vec3) : Vec3 :=
  let m := fsqrt (dot3 v v)
  ⟨v.x / m, v.y / m, v.z / m⟩

/-- Rust `f32::max(0.0)` style maximum. -/
def fmax (a b : ℚ) : ℚ := max a b

/-- Rust `f32::clamp(lo, hi)`. -/
def fclamp (q lo hi : ℚ) : ℚ := if q < lo then lo else if q > hi then hi else q

/-- Rust `f32::fract`: `self - self.trunc()` (truncation toward zero, so the
result carries the sign of the input). -/
def ffract (q : ℚ) : ℚ := if 0 ≤ q then q - ⌊q⌋ else q - ⌈q⌉

/-- Rust `as usize` cast of an `f32`: saturating truncation toward zero
(negative values become `0`). -/
def toUsize (q : ℚ) : ℕ := if q ≤ 0 then 0 else (⌊q⌋).toNat

/-- Rust `as u32` cast of an `f32`: saturating truncation toward zero. -/
def toU32 (q : ℚ) : ℕ :=
  if q ≤ 0 then 0 else min (⌊q⌋).toNat 4294967295

/-- Model of `f32::powf`, used with the material's nonnegative integer
`shininess` exponents (8.0 / 32.0 / 128.0): rational exponentiation by the
integer part of the exponent. -/
def fpow (base e : ℚ) : ℚ := base ^ e.num.toNat

/-- `framebuffer.rs` `FrameBuffer`, polymorphic in the color entry type: the
snapshot's `framebuffer.rs` stores `Vec4<f32>` colors while the legacy
`renderer.rs` pipeline stores packed `u32` colors; `put_pixel`'s logic never
inspects the color, so one definition covers both. -/
structure FrameBuffer (Color : Type) where
  width : ℕ
  height : ℕ
  data : List Color
  depth : List ℚ
deriving DecidableEq

/-- `FrameBuffer::new`: zeroed color buffer, depth buffer filled with the far
sentinel `1.0`. -/
def FrameBuffer.new (width height : ℕ) : FrameBuffer Vec4 :=
  { width := width, height := height
    data := List.replicate (width * height) ⟨0, 0, 0, 0⟩
    depth := List.replicate (width * height) 1 }

/-- `FrameBuffer::clear`: reset every color entry to `color` and every depth
entry to `1.0`. -/
def FrameBuffer.clear {C : Type} (fb : FrameBuffer C) (color : C) : FrameBuffer C :=
  { fb with data := List.replicate fb.data.length color
            depth := List.replicate fb.depth.length 1 }

/-- `FrameBuffer::put_pixel` (framebuffer.rs:28-37): bounds-checked,
depth-gated write of both the color entry and the depth entry at
`y * width + x`. -/
def FrameBuffer.put_pixel {C : Type} (fb : FrameBuffer C) (x y : ℕ) (color : C)
    (depth : ℚ) : FrameBuffer C :=
  if x < fb.width ∧ y < fb.height then
    let idx := y * fb.width + x
    if 0 ≤ depth ∧ depth ≤ 1 ∧ depth < fb.depth.getD idx 0 then
      { fb with data := fb.data.set idx color, depth := fb.depth.set idx depth }
    else fb
  else fb

/-- The in-range source samples of the `factor × factor` block feeding output
pixel `(x, y)` of `FrameBuffer::ssaa`'s box filter: the inner double loop over
`fy`, `fx` keeps `(x*factor+fx, y*factor+fy)` when it lies inside the source
extent and reads its color. -/
def FrameBuffer.ssaaSamples (fb : FrameBuffer Vec4) (factor x y : ℕ) : List Vec4 :=
  (List.range factor).flatMap (fun fy =>
    (List.range factor).filterMap (fun fx =>
      let srcX := x * factor + fx
      let srcY := y * factor + fy
      if srcX < fb.width ∧ srcY < fb.height then
        some (fb.data.getD (srcY * fb.width + srcX) ⟨0, 0, 0, 0⟩)
      else none))

/-- `FrameBuffer::ssaa` (framebuffer.rs:39-83).  `factor == 1` returns a
clone.  Otherwise a fresh `FrameBuffer::new (width/factor) (height/factor)` is
filled: the loop body writes index `y*new_width + x` exactly once, in
row-major order, storing the per-channel average of the block's in-range
samples when there is at least one (`count > 0`) and keeping `new`'s zero
initialization otherwise; the row-major table below is that buffer.  The
depth buffer is the one from `FrameBuffer::new`, never written. -/
def FrameBuffer.ssaa (fb : FrameBuffer Vec4) (factor : ℕ) : FrameBuffer Vec4 :=
  if factor = 1 then fb
  else
    let newWidth := fb.width / factor
    let newHeight := fb.height / factor
    { width := newWidth, height := newHeight
      depth := List.replicate (newWidth * newHeight) 1
      data := (List.range newHeight).flatMap (fun y =>
        (List.range newWidth).map (fun x =>
          let samples := fb.ssaaSamples factor x y
          let count : ℕ := samples.length
          if 0 < count then
            ⟨(samples.map Vec4.x).sum / (count : ℚ),
             (samples.map Vec4.y).sum / (count : ℚ),
             (samples.map Vec4.z).sum / (count : ℚ),
             (samples.map Vec4.w).sum / (count : ℚ)⟩
          else ⟨0, 0, 0, 0⟩)) }

/-- `rasterizer.rs` `get_barycentric_coords` (rasterizer.rs:4-25): the
`[Vec2<f32>; 3]` vertex array is passed as its three components `a b c`.
Returns `none` when the denominator of the 2×2 dot-product solve is within
`1e-6` of zero, otherwise `Some((w, v, u))` with `u = 1 - v - w`. -/
def get_barycentric_coords (a b c p : Vec2) : Option (ℚ × ℚ × ℚ) :=
  let v0 := sub2 b a
  let v1 := sub2 c a
  let v2 := sub2 p a
  let d00 := dot2 v0 v0
  let d01 := dot2 v0 v1
  let d11 := dot2 v1 v1
  let d20 := dot2 v2 v0
  let d21 := dot2 v2 v1
  let denom := d00 * d11 - d01 * d01
  if |denom| < 1 / 1000000 then none
  else
    let v := (d11 * d20 - d01 * d21) / denom
    let w := (d00 * d21 - d01 * d20) / denom
    let u := 1 - v - w
    some (w, v, u)

/-- `rasterizer.rs` `is_inside_triangle` (rasterizer.rs:95-110): the point is
inside iff the three signed edge cross products share a sign (all `>= 0` or
all `<= 0`). -/
def is_inside_triangle (a b c p : Vec2) : Bool :=
  let v0 := sub2 b a
  let v1 := sub2 c b
  let v2 := sub2 a c
  let p0 := sub2 p a
  let p1 := sub2 p b
  let p2 := sub2 p c
  let cross0 := v0.x * p0.y - v0.y * p0.x
  let cross1 := v1.x * p1.y - v1.y * p1.x
  let cross2 := v2.x * p2.y - v2.y * p2.x
  (decide (0 ≤ cross0) && decide (0 ≤ cross1) && decide (0 ≤ cross2)) ||
  (decide (cross0 ≤ 0) && decide (cross1 ≤ 0) && decide (cross2 ≤ 0))

/-- `vertex.rs` `Material`. -/
structure Material where
  ambient : Vec3
  diffuse : Vec3
  specular : Vec3
  specular_strength : ℚ
  shininess : ℚ
deriving DecidableEq

/-- `Material::metal`. -/
def Material.metal : Material :=
  { ambient := ⟨1/5, 1/5, 1/5⟩, diffuse := ⟨4/5, 4/5, 4/5⟩
    specular := ⟨1, 1, 1⟩, specular_strength := 9/10, shininess := 128 }

/-- `Material::plastic`. -/
def Material.plastic : Material :=
  { ambient := ⟨1/10, 1/10, 1/10⟩, diffuse := ⟨1/2, 1/2, 1/2⟩
    specular := ⟨4/5, 4/5, 4/5⟩, specular_strength := 1/2, shininess := 32 }

/-- `Material::wood`. -/
def Material.wood : Material :=
  { ambient := ⟨3/10, 1/5, 1/10⟩, diffuse := ⟨3/5, 2/5, 1/5⟩
    specular := ⟨1/5, 1/5, 1/5⟩, specular_strength := 1/10, shininess := 8 }

/-- `vertex.rs` `ColoredVertex`. -/
structure ColoredVertex where
  pos : Vec3
  color : Vec3
  normal : Vec3
  uv : Vec2
deriving DecidableEq

/-- `vertex.rs` `RasterPoint`: screen-space position, carried world position,
color, normal, normalized depth `z` and texture coordinate. -/
structure RasterPoint where
  pos : Vec2
  world_pos : Vec3
  color : Vec3
  normal : Vec3
  z : ℚ
  uv : Vec2
deriving DecidableEq

/-- `vertex.rs` `Triangle`: three vertices, the stored face normal and the
material.  The `[ColoredVertex; 3]` array is the three fields `v0 v1 v2`. -/
structure Triangle where
  v0 : ColoredVertex
  v1 : ColoredVertex
  v2 : ColoredVertex
  normal : Vec3
  material : Material
deriving DecidableEq

/-- `Triangle::compute_normal`: normalized cross product of the two edges. -/
def Triangle.compute_normal (v0 v1 v2 : ColoredVertex) : Vec3 :=
  normalize3 (cross3 (sub3 v1.pos v0.pos) (sub3 v2.pos v0.pos))

/-- `Triangle::new`. -/
def Triangle.new (v0 v1 v2 : ColoredVertex) (material : Material) : Triangle :=
  { v0 := v0, v1 := v1, v2 := v2
    normal := Triangle.compute_normal v0 v1 v2, material := material }

/-- `Triangle::get_center`: centroid of the three positions. -/
def Triangle.get_center (t : Triangle) : Vec3 :=
  scale3 (1/3) (add3 (add3 t.v0.pos t.v1.pos) t.v2.pos)

/-- `vertex.rs` `RasterTriangle`: the `[RasterPoint; 3]` array is the three
fields `p0 p1 p2`. -/
structure RasterTriangle where
  p0 : RasterPoint
  p1 : RasterPoint
  p2 : RasterPoint
  material : Material
deriving DecidableEq

/-- `rasterizer.rs` `interpolate_depth` (rasterizer.rs:27-41): linear
interpolation of `1/z` followed by inversion.  A zero interpolated `1/z`
makes the source's final `1.0 / x` non-finite, which the depth gate of
`put_pixel` then always rejects; the model returns `none` for that case (and
is exact whenever every `z` is nonzero). -/
def interpolate_depth (p0 p1 p2 : RasterPoint) (bary : ℚ × ℚ × ℚ) : Option ℚ :=
  let (u, v, w) := bary
  let invZ0 := 1 / p0.z
  let invZ1 := 1 / p1.z
  let invZ2 := 1 / p2.z
  let s := w * invZ0 + v * invZ1 + u * invZ2
  if s = 0 then none else some (1 / s)

/-- `rasterizer.rs` `interpolate_uv`. -/
def interpolate_uv (p0 p1 p2 : RasterPoint) (bary : ℚ × ℚ × ℚ) : Vec2 :=
  let (u, v, w) := bary
  add2 (add2 (scale2 w p0.uv) (scale2 v p1.uv)) (scale2 u p2.uv)

/-- `rasterizer.rs` `interpolate_color`. -/
def interpolate_color (p0 p1 p2 : RasterPoint) (bary : ℚ × ℚ × ℚ) : Vec3 :=
  let (u, v, w) := bary
  add3 (add3 (scale3 w p0.color) (scale3 v p1.color)) (scale3 u p2.color)

/-- `rasterizer.rs` `interpolate_normal`: barycentric blend renormalized. -/
def interpolate_normal (p0 p1 p2 : RasterPoint) (bary : ℚ × ℚ × ℚ) : Vec3 :=
  let (u, v, w) := bary
  normalize3 (add3 (add3 (scale3 w p0.normal) (scale3 v p1.normal)) (scale3 u p2.normal))

/-- `rasterizer.rs` `get_box`: integer bounding box (floor of mins, ceil of
maxes) of the three screen positions. -/
def get_box (a b c : Vec2) : ℤ × ℤ × ℤ × ℤ :=
  let minX := min a.x (min b.x c.x)
  let maxX := max a.x (max b.x c.x)
  let minY := min a.y (min b.y c.y)
  let maxY := max a.y (max b.y c.y)
  (⌊minX⌋, ⌊minY⌋, ⌈maxX⌉, ⌈maxY⌉)

/-- Modelled from the spec: `ClipSpaceVertex` (spec §3) — the output of vertex
shading.  The struct's definition is absent from this source snapshot (only
`clip.rs` and `renderer/vertex_shader.rs` consuming it are present); its
fields follow the spec's data model: homogeneous clip position (4 floats, `w`
not yet divided), world-space position, world-space normal, uv, color. -/
structure ClipSpaceVertex where
  position : Vec4
  world_pos : Vec3
  normal : Vec3
  uv : Vec2
  color : Vec3
deriving DecidableEq

/-- `renderer/clip.rs` `SimpleClipper::clip_triangle` (clip.rs:14-28): the
`[ClipSpaceVertex; 3]` input array is passed as its three components.  If all
three clip-space `w` are negative the triangle is discarded (empty list),
otherwise it is passed through whole. -/
def clip_triangle (t0 t1 t2 : ClipSpaceVertex) :
    List (ClipSpaceVertex × ClipSpaceVertex × ClipSpaceVertex) :=
  let v0w := t0.position.w
  let v1w := t1.position.w
  let v2w := t2.position.w
  if v0w < 0 ∧ v1w < 0 ∧ v2w < 0 then []
  else [(t0, t1, t2)]

/-- `texture.rs` `Texture`: packed `u32` pixels, row-major. -/
structure Texture where
  width : ℕ
  height : ℕ
  data : List ℕ
deriving DecidableEq

/-- `Texture::get_pixel_color`: unpack the `u32` at `(x, y)` into RGB channels
in `[0, 1]`. -/
def Texture.get_pixel_color (t : Texture) (x y : ℕ) : Vec3 :=
  let color := t.data.getD (y * t.width + x) 0
  ⟨((color >>> 24) &&& 255 : ℕ) / 255,
   ((color >>> 16) &&& 255 : ℕ) / 255,
   ((color >>> 8) &&& 255 : ℕ) / 255⟩

/-- `Texture::sample` (texture.rs:42-55): fractional-part UV wrap, V axis
flipped, coordinates clamped to the texture extent. -/
def Texture.sample (t : Texture) (uv : Vec2) : Vec3 :=
  let u := ffract uv.x
  let v := ffract uv.y
  let x := toUsize (u * (t.width : ℚ))
  let y := toUsize ((1 - v) * (t.height : ℚ))
  let x := min x (t.width - 1)
  let y := min y (t.height - 1)
  t.get_pixel_color x y

/-- `renderer.rs` `Light`. -/
structure Light where
  direction : Vec3
  color : Vec3
  intensity : ℚ
  ambient_strength : ℚ
  ambient_color : Vec3
deriving DecidableEq

/-- `renderer/fragment_shader.rs` `FragmentData`. -/
structure FragmentData where
  world_pos : Vec3
  normal : Vec3
  uv : Vec2
  color : Vec3
  texture : Option Texture
  material : Material
  camera_pos : Vec3
deriving DecidableEq

/-- `renderer/fragment_shader.rs` `ToonShader`. -/
structure ToonShader where
  light : Light
deriving DecidableEq

/-- `ToonShader::shade` (fragment_shader.rs:30-78): texture-or-vertex base
color multiplied by ambient + three-band quantized diffuse + Blinn-Phong
specular, clamped per channel. -/
def ToonShader.shade (sh : ToonShader) (data : FragmentData) : Vec3 :=
  let baseColor :=
    match data.texture with
    | some tex => tex.sample data.uv
    | none => data.color
  let ambient := scale3 sh.light.ambient_strength sh.light.ambient_color
  let lightDir := normalize3 sh.light.direction
  let diff := fmax (dot3 data.normal (neg3 lightDir)) 0
  let diffuse :=
    if diff > 3/5 then scale3 (sh.light.intensity * (11/10)) sh.light.color
    else if diff > 1/5 then scale3 (sh.light.intensity * (4/5)) sh.light.color
    else scale3 (sh.light.intensity * (1/2)) sh.light.color
  let specular :=
    let viewDir := normalize3 (sub3 data.camera_pos data.world_pos)
    let halfDir := normalize3 (add3 (neg3 lightDir) viewDir)
    let spec := fmax (dot3 data.normal halfDir) 0
    let spec := fpow spec data.material.shininess
    scale3 (data.material.specular_strength * spec)
      (mulew3 sh.light.color data.material.specular)
  let finalLighting := add3 (add3 ambient diffuse) specular
  let finalColor := mulew3 baseColor finalLighting
  ⟨fclamp finalColor.x 0 1, fclamp finalColor.y 0 1, fclamp finalColor.z 0 1⟩

/-- cgmath `Matrix4<f32>` over the rational model, stored row-major:
`mRC` is the entry at row `R`, column `C`. -/
structure Mat4 where
  m00 : ℚ
  m01 : ℚ
  m02 : ℚ
  m03 : ℚ
  m10 : ℚ
  m11 : ℚ
  m12 : ℚ
  m13 : ℚ
  m20 : ℚ
  m21 : ℚ
  m22 : ℚ
  m23 : ℚ
  m30 : ℚ
  m31 : ℚ
  m32 : ℚ
  m33 : ℚ
deriving DecidableEq

/-- The identity matrix (cgmath `Mat4::identity`). -/
def mat4_identity : Mat4 :=
  ⟨1, 0, 0, 0, 0, 1, 0, 0, 0, 0, 1, 0, 0, 0, 0, 1⟩

/-- Matrix-vector product `M * v`. -/
def mat4_mulVec (M : Mat4) (v : Vec4) : Vec4 :=
  ⟨M.m00 * v.x + M.m01 * v.y + M.m02 * v.z + M.m03 * v.w,
   M.m10 * v.x + M.m11 * v.y + M.m12 * v.z + M.m13 * v.w,
   M.m20 * v.x + M.m21 * v.y + M.m22 * v.z + M.m23 * v.w,
   M.m30 * v.x + M.m31 * v.y + M.m32 * v.z + M.m33 * v.w⟩

/-- Matrix product `A * B`. -/
def mat4_mul (A B : Mat4) : Mat4 :=
  ⟨A.m00 * B.m00 + A.m01 * B.m10 + A.m02 * B.m20 + A.m03 * B.m30,
   A.m00 * B.m01 + A.m01 * B.m11 + A.m02 * B.m21 + A.m03 * B.m31,
   A.m00 * B.m02 + A.m01 * B.m12 + A.m02 * B.m22 + A.m03 * B.m32,
   A.m00 * B.m03 + A.m01 * B.m13 + A.m02 * B.m23 + A.m03 * B.m33,
   A.m10 * B.m00 + A.m11 * B.m10 + A.m12 * B.m20 + A.m13 * B.m30,
   A.m10 * B.m01 + A.m11 * B.m11 + A.m12 * B.m21 + A.m13 * B.m31,
   A.m10 * B.m02 + A.m11 * B.m12 + A.m12 * B.m22 + A.m13 * B.m32,
   A.m10 * B.m03 + A.m11 * B.m13 + A.m12 * B.m23 + A.m13 * B.m33,
   A.m20 * B.m00 + A.m21 * B.m10 + A.m22 * B.m20 + A.m23 * B.m30,
   A.m20 * B.m01 + A.m21 * B.m11 + A.m22 * B.m21 + A.m23 * B.m31,
   A.m20 * B.m02 + A.m21 * B.m12 + A.m22 * B.m22 + A.m23 * B.m32,
   A.m20 * B.m03 + A.m21 * B.m13 + A.m22 * B.m23 + A.m23 * B.m33,
   A.m30 * B.m00 + A.m31 * B.m10 + A.m32 * B.m20 + A.m33 * B.m30,
   A.m30 * B.m01 + A.m31 * B.m11 + A.m32 * B.m21 + A.m33 * B.m31,
   A.m30 * B.m02 + A.m31 * B.m12 + A.m32 * B.m22 + A.m33 * B.m32,
   A.m30 * B.m03 + A.m31 * B.m13 + A.m32 * B.m23 + A.m33 * B.m33⟩

/-- cgmath `Matrix::transpose`. -/
def mat4_transpose (M : Mat4) : Mat4 :=
  ⟨M.m00, M.m10, M.m20, M.m30,
   M.m01, M.m11, M.m21, M.m31,
   M.m02, M.m12, M.m22, M.m32,
   M.m03, M.m13, M.m23, M.m33⟩

/-- Determinant of a 3×3 matrix given row-major. -/
def det3 (a b c d e f g h i : ℚ) : ℚ :=
  a * (e * i - f * h) - b * (d * i - f * g) + c * (d * h - e * g)

/-- Determinant of a `Mat4` (cofactor expansion along the first row). -/
def mat4_det (M : Mat4) : ℚ :=
  M.m00 * det3 M.m11 M.m12 M.m13 M.m21 M.m22 M.m23 M.m31 M.m32 M.m33
  - M.m01 * det3 M.m10 M.m12 M.m13 M.m20 M.m22 M.m23 M.m30 M.m32 M.m33
  + M.m02 * det3 M.m10 M.m11 M.m13 M.m20 M.m21 M.m23 M.m30 M.m31 M.m33
  - M.m03 * det3 M.m10 M.m11 M.m12 M.m20 M.m21 M.m22 M.m30 M.m31 M.m32

/-- Model of cgmath `SquareMatrix::invert().unwrap()`: the adjugate divided by
the determinant.  The source's `unwrap` panics on a singular matrix; there the
model's division by zero yields the zero matrix instead, and every theorem
whose conclusion depends on that path either hypothesizes invertibility or
has a hypothesis that the zero matrix cannot satisfy. -/
def mat4_inverse (M : Mat4) : Mat4 :=
  let d := mat4_det M
  ⟨det3 M.m11 M.m12 M.m13 M.m21 M.m22 M.m23 M.m31 M.m32 M.m33 / d,
   -det3 M.m01 M.m02 M.m03 M.m21 M.m22 M.m23 M.m31 M.m32 M.m33 / d,
   det3 M.m01 M.m02 M.m03 M.m11 M.m12 M.m13 M.m31 M.m32 M.m33 / d,
   -det3 M.m01 M.m02 M.m03 M.m11 M.m12 M.m13 M.m21 M.m22 M.m23 / d,
   -det3 M.m10 M.m12 M.m13 M.m20 M.m22 M.m23 M.m30 M.m32 M.m33 / d,
   det3 M.m00 M.m02 M.m03 M.m20 M.m22 M.m23 M.m30 M.m32 M.m33 / d,
   -det3 M.m00 M.m02 M.m03 M.m10 M.m12 M.m13 M.m30 M.m32 M.m33 / d,
   det3 M.m00 M.m02 M.m03 M.m10 M.m12 M.m13 M.m20 M.m22 M.m23 / d,
   det3 M.m10 M.m11 M.m13 M.m20 M.m21 M.m23 M.m30 M.m31 M.m33 / d,
   -det3 M.m00 M.m01 M.m03 M.m20 M.m21 M.m23 M.m30 M.m31 M.m33 / d,
   det3 M.m00 M.m01 M.m03 M.m10 M.m11 M.m13 M.m30 M.m31 M.m33 / d,
   -det3 M.m00 M.m01 M.m03 M.m10 M.m11 M.m13 M.m20 M.m21 M.m23 / d,
   -det3 M.m10 M.m11 M.m12 M.m20 M.m21 M.m22 M.m30 M.m31 M.m32 / d,
   det3 M.m00 M.m01 M.m02 M.m20 M.m21 M.m22 M.m30 M.m31 M.m32 / d,
   -det3 M.m00 M.m01 M.m02 M.m10 M.m11 M.m12 M.m30 M.m31 M.m32 / d,
   det3 M.m00 M.m01 M.m02 M.m10 M.m11 M.m12 M.m20 M.m21 M.m22 / d⟩

/-- `camera.rs` `Camera`, modelled by what the pipeline consumes from it: the
projection matrix `get_frustum().get_mat()`, the view matrix `get_view_mat()`
and the eye position.  (The trigonometric construction of these from
yaw/pitch/fov is outside every claim.) -/
structure Camera where
  frustum_mat : Mat4
  view_mat : Mat4
  eye : Vec3
deriving DecidableEq

/-- `renderer.rs` `Viewport` (integer origin and extent). -/
structure Viewport where
  x : ℤ
  y : ℤ
  w : ℤ
  h : ℤ
deriving DecidableEq

/-- `renderer.rs` `Renderer`: camera, framebuffer (packed `u32` colors in this
snapshot's pipeline), viewport and light. -/
structure Renderer where
  camera : Camera
  framebuffer : FrameBuffer ℕ
  viewport : Viewport
  light : Light
deriving DecidableEq

/-- `vertex.rs` `Triangle::is_backface_world_space` (vertex.rs:124-138),
factored as the dot product it compares against zero: the stored face normal
pushed to world space by the normal matrix (inverse-transpose of the model
matrix) and normalized, dotted with the normalized direction from the
world-space centroid to `camera_pos`. -/
def backfaceDot (t : Triangle) (camera_pos : Vec3) (model : Mat4) : ℚ :=
  let normal_matrix := mat4_transpose (mat4_inverse model)
  let world_normal := normalize3 (truncate4 (mat4_mulVec normal_matrix (extend3 t.normal 0)))
  let center_world4 := mat4_mulVec model (extend3 t.get_center 1)
  let center_world := (⟨center_world4.x, center_world4.y, center_world4.z⟩ : Vec3)
  let view_dir := normalize3 (sub3 camera_pos center_world)
  dot3 world_normal view_dir

/-- `Triangle::is_backface_world_space`: backface iff the dot product is
strictly negative. -/
def Triangle.is_backface_world_space (t : Triangle) (camera_pos : Vec3)
    (model : Mat4) : Bool :=
  decide (backfaceDot t camera_pos model < 0)

/-- `renderer.rs` `transform_colored_vertices` (renderer.rs:232-274) applied
to one vertex: world position, clip transform and perspective divide, depth
remap `(z+1)*0.5`, normal through the normal matrix, NDC→screen map with the
Y axis flipped. -/
def transform_colored_vertex (cam : Camera) (vp : Viewport) (normal_matrix : Mat4)
    (model : Mat4) (v : ColoredVertex) : RasterPoint :=
  let world_pos := truncate4 (mat4_mulVec model (extend3 v.pos 1))
  let pos0 := mat4_mulVec (mat4_mul (mat4_mul cam.frustum_mat cam.view_mat) model)
    (extend3 v.pos 1)
  let pos := (⟨pos0.x / pos0.w, pos0.y / pos0.w, pos0.z / pos0.w, pos0.w / pos0.w⟩ : Vec4)
  let depth := (pos.z + 1) * (1/2)
  let normal := normalize3 (truncate4 (mat4_mulVec normal_matrix (extend3 v.normal 0)))
  let screenX := (pos.x + 1) * (1/2) * (vp.w : ℚ) + (vp.x : ℚ)
  let screenY := (vp.h : ℚ) - (pos.y + 1) * (1/2) * (vp.h : ℚ) + (vp.y : ℚ)
  { pos := ⟨screenX, screenY⟩, color := v.color, z := depth
    normal := normal, uv := v.uv, world_pos := world_pos }

/-- `renderer.rs` `transform_colored_vertices`: the three vertices through
`transform_colored_vertex`, with `normal_matrix = model.invert().unwrap().transpose()`. -/
def transform_colored_vertices (r : Renderer) (t : Triangle) (model : Mat4) :
    RasterTriangle :=
  let normal_matrix := mat4_transpose (mat4_inverse model)
  { p0 := transform_colored_vertex r.camera r.viewport normal_matrix model t.v0
    p1 := transform_colored_vertex r.camera r.viewport normal_matrix model t.v1
    p2 := transform_colored_vertex r.camera r.viewport normal_matrix model t.v2
    material := t.material }

/-- The inclusive integer range `lo..=hi` as a list (empty when `hi < lo`),
modelling `for i in lo..=hi`. -/
def intRange (lo hi : ℤ) : List ℤ :=
  (List.range (hi + 1 - lo).toNat).map (fun i => lo + (i : ℤ))

/-- The body of `rasterize_colored_triangle`'s pixel loop
(renderer.rs:319-396) at integer pixel `(x, y)`: sample the pixel center,
test coverage, compute barycentric coordinates (`unwrap_or((0,0,0))`),
interpolate attributes, shade (inline toon-style lighting), pack the color to
`u32` and issue the depth-tested write.  A non-finite interpolated depth
(`interpolate_depth = none`) always fails `put_pixel`'s depth-range gate, so
it leaves the framebuffer unchanged. -/
def rasterize_pixel (camEye : Vec3) (light : Light) (t : RasterTriangle)
    (texture : Option Texture) (fb : FrameBuffer ℕ) (x y : ℤ) : FrameBuffer ℕ :=
  let a := t.p0.pos
  let b := t.p1.pos
  let c := t.p2.pos
  let p := (⟨(x : ℚ) + 1/2, (y : ℚ) + 1/2⟩ : Vec2)
  if is_inside_triangle a b c p then
    let bary := (get_barycentric_coords a b c p).getD (0, 0, 0)
    let interpolatedColor0 := interpolate_color t.p0 t.p1 t.p2 bary
    let interpolatedDepth := interpolate_depth t.p0 t.p1 t.p2 bary
    let interpolatedNormal := interpolate_normal t.p0 t.p1 t.p2 bary
    let interpolatedUv := interpolate_uv t.p0 t.p1 t.p2 bary
    let worldPos := add3 (add3 (scale3 bary.2.2 t.p0.world_pos)
      (scale3 bary.2.1 t.p1.world_pos)) (scale3 bary.1 t.p2.world_pos)
    let interpolatedColor :=
      match texture with
      | some tex => tex.sample interpolatedUv
      | none => interpolatedColor0
    let ambient := scale3 light.ambient_strength light.ambient_color
    let lightDir := normalize3 light.direction
    let diff := fmax (dot3 interpolatedNormal (neg3 lightDir)) 0
    let diffuse :=
      if diff > 3/5 then scale3 (light.intensity * (11/10)) light.color
      else if diff > 1/5 then scale3 (light.intensity * (4/5)) light.color
      else scale3 (light.intensity * (1/2)) light.color
    let specular :=
      let viewDir := normalize3 (sub3 camEye worldPos)
      let halfDir := normalize3 (add3 (neg3 lightDir) viewDir)
      let spec := fmax (dot3 interpolatedNormal halfDir) 0
      let spec := fpow spec t.material.shininess
      scale3 (t.material.specular_strength * spec) (mulew3 light.color t.material.specular)
    let finalColor0 := mulew3 interpolatedColor (add3 (add3 ambient diffuse) specular)
    let finalColor := (⟨fclamp finalColor0.x 0 1, fclamp finalColor0.y 0 1,
      fclamp finalColor0.z 0 1⟩ : Vec3)
    let color := (toU32 (finalColor.x * 255)) <<< 16 |||
      (toU32 (finalColor.y * 255)) <<< 8 ||| (toU32 (finalColor.z * 255))
    let color := 4278190080 ||| color
    match interpolatedDepth with
    | none => fb
    | some d => fb.put_pixel x.toNat y.toNat color d
  else fb

/-- `renderer.rs` `rasterize_colored_triangle` (renderer.rs:304-398): clamp
the integer bounding box to the framebuffer extent and run the pixel loop in
row-major order. -/
def rasterize_colored_triangle (r : Renderer) (t : RasterTriangle)
    (texture : Option Texture) : Renderer :=
  let box := get_box t.p0.pos t.p1.pos t.p2.pos
  let minX := max box.1 0
  let minY := max box.2.1 0
  let maxX := min box.2.2.1 ((r.framebuffer.width : ℤ) - 1)
  let maxY := min box.2.2.2 ((r.framebuffer.height : ℤ) - 1)
  { r with framebuffer :=
      ((intRange minY maxY).foldl (fun fb y =>
        (intRange minX maxX).foldl (fun fb x =>
          rasterize_pixel r.camera.eye r.light t texture fb x y) fb)
        r.framebuffer) }

/-- `renderer.rs` `render_colored_triangles` (renderer.rs:401-418): per
triangle, cull with `is_backface_world_space(Vec3::zero(), model)` (note the
hard-coded origin camera position), otherwise transform and rasterize. -/
def render_colored_triangles (r : Renderer) (triangles : List Triangle)
    (model : Mat4) (texture : Option Texture) : Renderer :=
  triangles.foldl (fun r t =>
    if t.is_backface_world_space ⟨0, 0, 0⟩ model then r
    else rasterize_colored_triangle r (transform_colored_vertices r t model) texture) r

/-- Clamp each channel of a color to `[0, 1]` — the spec's "clamped to [0,1]
per channel". -/
def clamp01 (c : Vec3) : Vec3 :=
  ⟨fclamp c.x 0 1, fclamp c.y 0 1, fclamp c.z 0 1⟩

/-- The spec's base color for toon shading: "the texture sample at the
fragment's uv when a texture is present and the interpolated vertex color
otherwise". -/
def toonBaseColor (data : FragmentData) : Vec3 :=
  match data.texture with
  | some tex => tex.sample data.uv
  | none => data.color

/-- The spec's ambient term: ambient color scaled by ambient strength. -/
def toonAmbient (light : Light) : Vec3 :=
  scale3 light.ambient_strength light.ambient_color

/-- The spec's three-band quantized diffuse term: the diffuse dot product
`max(dot(normal, -light_dir), 0)` bucketed by the thresholds `0.6` (bright
band, weight 1.1) and `0.2` (mid band, weight 0.8), dark band weight 0.5. -/
def toonDiffuse (light : Light) (data : FragmentData) : Vec3 :=
  let d := fmax (dot3 data.normal (neg3 (normalize3 light.direction))) 0
  if d > 3/5 then scale3 (light.intensity * (11/10)) light.color
  else if d > 1/5 then scale3 (light.intensity * (4/5)) light.color
  else scale3 (light.intensity * (1/2)) light.color

/-- The spec's Blinn-Phong specular term: half-vector dot product raised to
`shininess`, scaled by `specular_strength` and by the light and material
specular colors. -/
def toonSpecular (light : Light) (data : FragmentData) : Vec3 :=
  let viewDir := normalize3 (sub3 data.camera_pos data.world_pos)
  let halfDir := normalize3 (add3 (neg3 (normalize3 light.direction)) viewDir)
  let s := fpow (fmax (dot3 data.normal halfDir) 0) data.material.shininess
  scale3 (data.material.specular_strength * s) (mulew3 light.color data.material.specular)

/-- Spec §4.5's statement of the toon shade: "(texture-or-vertex color) ×
(ambient+diffuse+specular), clamped to [0,1] per channel". -/
def toonShadeSpec (light : Light) (data : FragmentData) : Vec3 :=
  clamp01 (mulew3 (toonBaseColor data)
    (add3 (add3 (toonAmbient light) (toonDiffuse light data)) (toonSpecular light data)))

/-! ### Concrete inputs used by witness theorems -/

/-- A concrete 4×4 `u32` framebuffer as after `clear(BLACK)`. -/
def wFbU : FrameBuffer ℕ :=
  ⟨4, 4, List.replicate 16 4278190080, List.replicate 16 1⟩

/-- A concrete renderer with identity projection and view, eye at `(0,0,7)`,
a 4×4 viewport and an axis-aligned light. -/
def wRenderer : Renderer :=
  { camera := ⟨mat4_identity, mat4_identity, ⟨0, 0, 7⟩⟩
    framebuffer := wFbU
    viewport := ⟨0, 0, 4, 4⟩
    light := ⟨⟨0, 0, 1⟩, ⟨1, 1, 1⟩, 1, 1/2, ⟨1, 1, 1⟩⟩ }

/-- A triangle in the plane `z = 0` whose face normal `(0,0,1)` is exactly
perpendicular to the direction from its centroid `(0, -1/3, 0)` to the origin
camera position: its backface dot product is exactly `0`. -/
def wTriBoundary : Triangle :=
  Triangle.new
    ⟨⟨-1, -1, 0⟩, ⟨1, 0, 0⟩, ⟨0, 0, 1⟩, ⟨0, 0⟩⟩
    ⟨⟨1, -1, 0⟩, ⟨0, 1, 0⟩, ⟨0, 0, 1⟩, ⟨0, 0⟩⟩
    ⟨⟨0, 1, 0⟩, ⟨0, 0, 1⟩, ⟨0, 0, 1⟩, ⟨0, 0⟩⟩
    Material.metal

/-- A triangle in the plane `z = 2` whose face normal `(0,0,1)` points away
from the origin camera position: its backface dot product is negative. -/
def wTriBack : Triangle :=
  Triangle.new
    ⟨⟨-1, -1, 2⟩, ⟨1, 0, 0⟩, ⟨0, 0, 1⟩, ⟨0, 0⟩⟩
    ⟨⟨1, -1, 2⟩, ⟨0, 1, 0⟩, ⟨0, 0, 1⟩, ⟨0, 0⟩⟩
    ⟨⟨0, 1, 2⟩, ⟨0, 0, 1⟩, ⟨0, 0, 1⟩, ⟨0, 0⟩⟩
    Material.metal

/-- A raster point placed at screen position `(5, 5)` with depth `1/2`. -/
def wPointCoincident : RasterPoint :=
  ⟨⟨5, 5⟩, ⟨0, 0, 0⟩, ⟨1, 1, 1⟩, ⟨0, 0, 1⟩, 1/2, ⟨0, 0⟩⟩

/-- A degenerate raster triangle: all three screen positions coincide. -/
def wTriCoincident : RasterTriangle :=
  ⟨wPointCoincident, wPointCoincident, wPointCoincident, Material.wood⟩

/-- Raster points at the corners of a screen triangle `(0,0)`, `(4,0)`,
`(0,4)` with distinct colors, depths and uv. -/
def wRp0 : RasterPoint := ⟨⟨0, 0⟩, ⟨0, 0, 0⟩, ⟨1, 0, 0⟩, ⟨0, 0, 1⟩, 1/2, ⟨0, 0⟩⟩

/-- Second corner for the interpolation witness. -/
def wRp1 : RasterPoint := ⟨⟨4, 0⟩, ⟨1, 0, 0⟩, ⟨0, 1, 0⟩, ⟨0, 0, 1⟩, 1/4, ⟨1, 0⟩⟩

/-- Third corner for the interpolation witness. -/
def wRp2 : RasterPoint := ⟨⟨0, 4⟩, ⟨0, 1, 0⟩, ⟨0, 0, 1⟩, ⟨0, 0, 1⟩, 3/4, ⟨0, 1⟩⟩

/-! ### Helper lemmas -/

theorem fclamp01_nonneg (q : ℚ) : 0 ≤ fclamp q 0 1 := by
  unfold fclamp
  split
  · exact le_refl 0
  · split
    · exact zero_le_one
    · linarith [not_lt.mp (by assumption : ¬q < 0)]

theorem fclamp01_le_one (q : ℚ) : fclamp q 0 1 ≤ 1 := by
  unfold fclamp
  split
  · exact zero_le_one
  · split
    · exact le_refl 1
    · linarith [not_lt.mp (by assumption : ¬(1 : ℚ) < q)]

theorem foldl_fixed {α β : Type} (f : β → α → β) :
    ∀ (l : List α) (b : β), (∀ x ∈ l, ∀ c, f c x = c) → l.foldl f b = b := by
  intro l
  induction l with
  | nil => intro b _; rfl
  | cons a l ih =>
    intro b h
    rw [List.foldl_cons, h a (List.mem_cons_self a l)]
    exact ih b (fun x hx c => h x (List.mem_cons_of_mem a hx) c)

theorem sum_of_constant (l : List ℚ) (a : ℚ) (h : ∀ e ∈ l, e = a) :
    l.sum = (l.length : ℚ) * a := by
  induction l with
  | nil => simp
  | cons x l ih =>
    rw [List.sum_cons, List.length_cons, ih (fun e he => h e (List.mem_cons_of_mem x he)),
      h x (List.mem_cons_self x l)]
    push_cast
    ring

/-! ### C1 — depth-tested pixel write -/

/-- C1: `put_pixel(x, y, color, depth)` overwrites both the color entry and
the depth entry at `y*width+x` exactly when `x < width`, `y < height`,
`depth ∈ [0,1]` and `depth` is strictly below the stored depth; in every
other case (out of bounds, depth out of range, or a tie or farther depth)
the framebuffer is completely unchanged — and the buffers change iff the
write condition holds. -/
theorem put_pixel_depth_gate {C : Type} [DecidableEq C] (fb : FrameBuffer C)
    (x y : ℕ) (color : C) (d : ℚ)
    (hlen : fb.depth.length = fb.width * fb.height) :
    ((x < fb.width ∧ y < fb.height ∧ 0 ≤ d ∧ d ≤ 1 ∧
        d < fb.depth.getD (y * fb.width + x) 0) →
      (fb.put_pixel x y color d).data = fb.data.set (y * fb.width + x) color ∧
      (fb.put_pixel x y color d).depth = fb.depth.set (y * fb.width + x) d) ∧
    (fb.put_pixel x y color d = fb ↔
      ¬(x < fb.width ∧ y < fb.height ∧ 0 ≤ d ∧ d ≤ 1 ∧
        d < fb.depth.getD (y * fb.width + x) 0)) := by
  by_cases hb : x < fb.width ∧ y < fb.height
  · by_cases hd : 0 ≤ d ∧ d ≤ 1 ∧ d < fb.depth.getD (y * fb.width + x) 0
    · have hres : fb.put_pixel x y color d =
          { fb with data := fb.data.set (y * fb.width + x) color
                    depth := fb.depth.set (y * fb.width + x) d } := by
        simp only [FrameBuffer.put_pixel, hb, hd, and_self, if_true]
      have hidx : y * fb.width + x < fb.depth.length := by
        rw [hlen]
        calc y * fb.width + x < y * fb.width + fb.width := by omega
        _ = (y + 1) * fb.width := by ring
        _ ≤ fb.height * fb.width := Nat.mul_le_mul_right _ (by omega)
        _ = fb.width * fb.height := Nat.mul_comm _ _
      constructor
      · intro _
        rw [hres]
        exact ⟨rfl, rfl⟩
      · constructor
        · intro heq
          exfalso
          have hdep : fb.depth.set (y * fb.width + x) d = fb.depth := by
            have := congrArg FrameBuffer.depth heq
            rw [hres] at this
            exact this
          have h1 : (fb.depth.set (y * fb.width + x) d)[y * fb.width + x]? = some d :=
            List.getElem?_set_self hidx
          rw [hdep, List.getElem?_eq_getElem hidx] at h1
          have h2 : fb.depth.getD (y * fb.width + x) 0 = d := by
            rw [List.getD_eq_getElem?_getD, List.getElem?_eq_getElem hidx,
              Option.getD_some, ← Option.some_inj, h1]
          have h3 := hd.2.2
          rw [h2] at h3
          exact lt_irrefl d h3
        · intro hn
          exact absurd ⟨hb.1, hb.2, hd.1, hd.2.1, hd.2.2⟩ hn
    · have hres : fb.put_pixel x y color d = fb := by
        simp only [FrameBuffer.put_pixel, hb, and_self, if_true, hd, if_false]
      refine ⟨fun hc => absurd ⟨hc.2.2.1, hc.2.2.2.1, hc.2.2.2.2⟩ hd, ?_⟩
      constructor
      · intro _
        intro hc
        exact hd ⟨hc.2.2.1, hc.2.2.2.1, hc.2.2.2.2⟩
      · intro _
        exact hres
  · have hres : fb.put_pixel x y color d = fb := by
      simp only [FrameBuffer.put_pixel, hb, if_false]
    refine ⟨fun hc => absurd ⟨hc.1, hc.2.1⟩ hb, ?_⟩
    constructor
    · intro _ hc
      exact hb ⟨hc.1, hc.2.1⟩
    · intro _
      exact hres

/-- Witness for C1: on a concrete 2×2 framebuffer the write condition holds
at `(1, 0)` with depth `1/2`, and `put_pixel` overwrites both entries. -/
theorem put_pixel_depth_gate_witness :
    ((1 < 2 ∧ 0 < 2 ∧ (0 : ℚ) ≤ 1/2 ∧ (1/2 : ℚ) ≤ 1 ∧
        (1/2 : ℚ) < (⟨2, 2, List.replicate 4 (⟨0,0,0,0⟩ : Vec4), List.replicate 4 1⟩ :
          FrameBuffer Vec4).depth.getD (0 * 2 + 1) 0)) ∧
    ((⟨2, 2, List.replicate 4 (⟨0,0,0,0⟩ : Vec4), List.replicate 4 1⟩ :
        FrameBuffer Vec4).put_pixel 1 0 ⟨1,1,1,1⟩ (1/2)).depth =
      (List.replicate 4 (1 : ℚ)).set 1 (1/2) := by
  refine ⟨⟨by omega, by omega, by norm_num, by norm_num, by with_unfolding_all decide⟩, ?_⟩
  exact ((put_pixel_depth_gate
    (⟨2, 2, List.replicate 4 (⟨0,0,0,0⟩ : Vec4), List.replicate 4 1⟩ : FrameBuffer Vec4)
    1 0 ⟨1,1,1,1⟩ (1/2) (by with_unfolding_all decide)).1
      (by with_unfolding_all decide)).2

/-! ### C5 — whole-triangle clip rejection -/

/-- C5: `SimpleClipper::clip_triangle` returns the empty list iff all three
vertices have clip-space `w < 0`; otherwise it returns exactly the input
triangle, unmodified. -/
theorem clip_triangle_reject (t0 t1 t2 : ClipSpaceVertex) :
    (clip_triangle t0 t1 t2 = [] ↔
      t0.position.w < 0 ∧ t1.position.w < 0 ∧ t2.position.w < 0) ∧
    (¬(t0.position.w < 0 ∧ t1.position.w < 0 ∧ t2.position.w < 0) →
      clip_triangle t0 t1 t2 = [(t0, t1, t2)]) := by
  unfold clip_triangle
  by_cases h : t0.position.w < 0 ∧ t1.position.w < 0 ∧ t2.position.w < 0
  · simp [h]
  · simp [h]

/-- Witness for C5: a concrete triangle with one nonnegative `w` passes
through unmodified. -/
theorem clip_triangle_reject_witness :
    ¬((⟨⟨0,0,0,1⟩, ⟨0,0,0⟩, ⟨0,0,1⟩, ⟨0,0⟩, ⟨1,1,1⟩⟩ : ClipSpaceVertex).position.w < 0 ∧
      (⟨⟨0,0,0,-1⟩, ⟨0,0,0⟩, ⟨0,0,1⟩, ⟨0,0⟩, ⟨1,1,1⟩⟩ : ClipSpaceVertex).position.w < 0 ∧
      (⟨⟨0,0,0,-1⟩, ⟨0,0,0⟩, ⟨0,0,1⟩, ⟨0,0⟩, ⟨1,1,1⟩⟩ : ClipSpaceVertex).position.w < 0) ∧
    clip_triangle
      ⟨⟨0,0,0,1⟩, ⟨0,0,0⟩, ⟨0,0,1⟩, ⟨0,0⟩, ⟨1,1,1⟩⟩
      ⟨⟨0,0,0,-1⟩, ⟨0,0,0⟩, ⟨0,0,1⟩, ⟨0,0⟩, ⟨1,1,1⟩⟩
      ⟨⟨0,0,0,-1⟩, ⟨0,0,0⟩, ⟨0,0,1⟩, ⟨0,0⟩, ⟨1,1,1⟩⟩ =
      [(⟨⟨0,0,0,1⟩, ⟨0,0,0⟩, ⟨0,0,1⟩, ⟨0,0⟩, ⟨1,1,1⟩⟩,
        ⟨⟨0,0,0,-1⟩, ⟨0,0,0⟩, ⟨0,0,1⟩, ⟨0,0⟩, ⟨1,1,1⟩⟩,
        ⟨⟨0,0,0,-1⟩, ⟨0,0,0⟩, ⟨0,0,1⟩, ⟨0,0⟩, ⟨1,1,1⟩⟩)] := by
  refine ⟨by with_unfolding_all decide, ?_⟩
  exact (clip_triangle_reject _ _ _).2 (by with_unfolding_all decide)

/-! ### C10 — ssaa output dimensions and depth sentinel -/

/-- C10: for every `factor ≥ 2`, `ssaa(factor)` returns a buffer of floor
dimensions `width/factor × height/factor` whose depth buffer holds the far
sentinel `1.0` everywhere, regardless of the source depths. -/
theorem ssaa_dims_and_depth (fb : FrameBuffer Vec4) (factor : ℕ) (h : 2 ≤ factor) :
    (fb.ssaa factor).width = fb.width / factor ∧
    (fb.ssaa factor).height = fb.height / factor ∧
    (fb.ssaa factor).depth =
      List.replicate ((fb.width / factor) * (fb.height / factor)) 1 := by
  have hne : factor ≠ 1 := by omega
  unfold FrameBuffer.ssaa
  simp [hne]

/-- Witness for C10: a concrete 4×4 buffer with depth `1/2` everywhere
downsampled by 2 has extent 2×2 and an all-`1.0` depth buffer. -/
theorem ssaa_dims_and_depth_witness :
    2 ≤ 2 ∧
    ((⟨4, 4, List.replicate 16 (⟨1,0,0,1⟩ : Vec4), List.replicate 16 (1/2)⟩ :
        FrameBuffer Vec4).ssaa 2).depth = List.replicate ((4/2) * (4/2)) 1 := by
  refine ⟨le_refl 2, ?_⟩
  exact (ssaa_dims_and_depth
    (⟨4, 4, List.replicate 16 (⟨1,0,0,1⟩ : Vec4), List.replicate 16 (1/2)⟩ :
      FrameBuffer Vec4) 2 (le_refl 2)).2.2

/-! ### C7 — ssaa on a uniform color buffer -/

theorem ssaaSamples_of_uniform (fb : FrameBuffer Vec4) (c0 : Vec4)
    (factor x y : ℕ) (huni : ∀ e ∈ fb.data, e = c0)
    (hlen : fb.data.length = fb.width * fb.height) :
    ∀ s ∈ fb.ssaaSamples factor x y, s = c0 := by
  intro s hs
  unfold FrameBuffer.ssaaSamples at hs
  rw [List.mem_flatMap] at hs
  obtain ⟨fy, _, hs⟩ := hs
  rw [List.mem_filterMap] at hs
  obtain ⟨fx, _, hsome⟩ := hs
  by_cases hc : x * factor + fx < fb.width ∧ y * factor + fy < fb.height
  · simp only [hc, and_self, if_true, Option.some_inj] at hsome
    have hidx : (y * factor + fy) * fb.width + (x * factor + fx) < fb.data.length := by
      rw [hlen]
      calc (y * factor + fy) * fb.width + (x * factor + fx)
          < (y * factor + fy) * fb.width + fb.width := by omega
      _ = ((y * factor + fy) + 1) * fb.width := by ring
      _ ≤ fb.height * fb.width := Nat.mul_le_mul_right _ (by omega)
      _ = fb.width * fb.height := Nat.mul_comm _ _
    have hget : fb.data.getD ((y * factor + fy) * fb.width + (x * factor + fx)) ⟨0,0,0,0⟩ =
        fb.data[(y * factor + fy) * fb.width + (x * factor + fx)] := by
      rw [List.getD_eq_getElem?_getD, List.getElem?_eq_getElem hidx, Option.getD_some]
    rw [← hsome, hget]
    exact huni _ (List.getElem_mem hidx)
  · simp only [hc, if_false] at hsome
    exact absurd hsome (Option.noConfusion)

theorem ssaaSamples_nonempty (fb : FrameBuffer Vec4) (factor x y : ℕ)
    (hf : 0 < factor) (hx : x < fb.width / factor) (hy : y < fb.height / factor) :
    0 < (fb.ssaaSamples factor x y).length := by
  have hxw : x * factor + 0 < fb.width := by
    have h1 : (x + 1) * factor ≤ (fb.width / factor) * factor :=
      Nat.mul_le_mul_right factor hx
    have h2 : (fb.width / factor) * factor ≤ fb.width := Nat.div_mul_le_self _ _
    have h3 : x * factor < (x + 1) * factor := by
      have : x * factor + factor = (x + 1) * factor := by ring
      omega
    omega
  have hyh : y * factor + 0 < fb.height := by
    have h1 : (y + 1) * factor ≤ (fb.height / factor) * factor :=
      Nat.mul_le_mul_right factor hy
    have h2 : (fb.height / factor) * factor ≤ fb.height := Nat.div_mul_le_self _ _
    have h3 : y * factor < (y + 1) * factor := by
      have : y * factor + factor = (y + 1) * factor := by ring
      omega
    omega
  refine List.length_pos_of_mem
    (a := fb.data.getD ((y * factor + 0) * fb.width + (x * factor + 0)) ⟨0,0,0,0⟩) ?_
  unfold FrameBuffer.ssaaSamples
  rw [List.mem_flatMap]
  refine ⟨0, List.mem_range.mpr hf, ?_⟩
  rw [List.mem_filterMap]
  refine ⟨0, List.mem_range.mpr hf, ?_⟩
  simp only [hxw, hyh, and_self, if_true]

/-- C7: downsampling a framebuffer whose color buffer is uniformly one color
`c0` by any `factor ≥ 1` yields a buffer whose every color entry is `c0`; for
`factor = 1` the result is the unmodified input. -/
theorem ssaa_uniform (fb : FrameBuffer Vec4) (c0 : Vec4) (factor : ℕ)
    (hf : 1 ≤ factor) (huni : ∀ e ∈ fb.data, e = c0)
    (hlen : fb.data.length = fb.width * fb.height) :
    (∀ e ∈ (fb.ssaa factor).data, e = c0) ∧ fb.ssaa 1 = fb := by
  have hid : fb.ssaa 1 = fb := by
    unfold FrameBuffer.ssaa
    simp
  refine ⟨?_, hid⟩
  by_cases h1 : factor = 1
  · subst h1
    rw [hid]
    exact huni
  · intro e he
    have hdata : (fb.ssaa factor).data =
        (List.range (fb.height / factor)).flatMap (fun y =>
          (List.range (fb.width / factor)).map (fun x =>
            let samples := fb.ssaaSamples factor x y
            let count : ℕ := samples.length
            if 0 < count then
              (⟨(samples.map Vec4.x).sum / (count : ℚ),
                (samples.map Vec4.y).sum / (count : ℚ),
                (samples.map Vec4.z).sum / (count : ℚ),
                (samples.map Vec4.w).sum / (count : ℚ)⟩ : Vec4)
            else ⟨0, 0, 0, 0⟩)) := by
      unfold FrameBuffer.ssaa
      simp [h1]
    rw [hdata, List.mem_flatMap] at he
    obtain ⟨y, hyr, he⟩ := he
    rw [List.mem_map] at he
    obtain ⟨x, hxr, he⟩ := he
    rw [List.mem_range] at hyr hxr
    have hpos : 0 < (fb.ssaaSamples factor x y).length :=
      ssaaSamples_nonempty fb factor x y (by omega) hxr hyr
    have hcast : ((fb.ssaaSamples factor x y).length : ℚ) ≠ 0 := by
      exact_mod_cast Nat.pos_iff_ne_zero.mp hpos
    have hsum : ∀ (proj : Vec4 → ℚ),
        ((fb.ssaaSamples factor x y).map proj).sum =
          ((fb.ssaaSamples factor x y).length : ℚ) * proj c0 := by
      intro proj
      have hall : ∀ q ∈ (fb.ssaaSamples factor x y).map proj, q = proj c0 := by
        intro q hq
        rw [List.mem_map] at hq
        obtain ⟨s, hsmem, hq⟩ := hq
        rw [← hq, ssaaSamples_of_uniform fb c0 factor x y huni hlen s hsmem]
      have := sum_of_constant _ (proj c0) hall
      rwa [List.length_map] at this
    simp only [hpos, if_true] at he
    have hx' : ((fb.ssaaSamples factor x y).map Vec4.x).sum /
        ((fb.ssaaSamples factor x y).length : ℚ) = c0.x := by
      rw [hsum Vec4.x, mul_div_cancel_left₀ _ hcast]
    have hy' : ((fb.ssaaSamples factor x y).map Vec4.y).sum /
        ((fb.ssaaSamples factor x y).length : ℚ) = c0.y := by
      rw [hsum Vec4.y, mul_div_cancel_left₀ _ hcast]
    have hz' : ((fb.ssaaSamples factor x y).map Vec4.z).sum /
        ((fb.ssaaSamples factor x y).length : ℚ) = c0.z := by
      rw [hsum Vec4.z, mul_div_cancel_left₀ _ hcast]
    have hw' : ((fb.ssaaSamples factor x y).map Vec4.w).sum /
        ((fb.ssaaSamples factor x y).length : ℚ) = c0.w := by
      rw [hsum Vec4.w, mul_div_cancel_left₀ _ hcast]
    rw [← he]
    cases c0
    simp only [Vec4.mk.injEq]
    exact ⟨hx', hy', hz', hw'⟩

/-- Witness for C7: a concrete 4×2 buffer uniformly filled with one color,
downsampled by 2, is uniformly that color. -/
theorem ssaa_uniform_witness :
    1 ≤ 2 ∧
    (∀ e ∈ ((⟨4, 2, List.replicate 8 (⟨1/2, 1/4, 1, 1⟩ : Vec4),
        List.replicate 8 1⟩ : FrameBuffer Vec4).ssaa 2).data,
      e = (⟨1/2, 1/4, 1, 1⟩ : Vec4)) := by
  refine ⟨by omega, ?_⟩
  exact (ssaa_uniform
    (⟨4, 2, List.replicate 8 (⟨1/2, 1/4, 1, 1⟩ : Vec4), List.replicate 8 1⟩ :
      FrameBuffer Vec4) ⟨1/2, 1/4, 1, 1⟩ 2 (by omega)
    (by with_unfolding_all decide) (by with_unfolding_all decide)).1

/-! ### C2 — barycentric weights: partition of unity and sign behavior -/

theorem weight_bounds_pos (q D cq cr cs : ℚ) (hq : q * D = cq)
    (hsum : cq + cr + cs = D) (h0 : 0 < D) (hcq : 0 ≤ cq) (hcr : 0 ≤ cr)
    (hcs : 0 ≤ cs) : 0 ≤ q ∧ q ≤ 1 := by
  constructor
  · nlinarith
  · nlinarith

theorem weight_bounds_neg (q D cq cr cs : ℚ) (hq : q * D = cq)
    (hsum : cq + cr + cs = D) (h0 : D < 0) (hcq : cq ≤ 0) (hcr : cr ≤ 0)
    (hcs : cs ≤ 0) : 0 ≤ q ∧ q ≤ 1 := by
  constructor
  · nlinarith
  · nlinarith

/-- C2: whenever `get_barycentric_coords` returns `Some (w, v, u)` the weights
sum to 1; for a point `is_inside_triangle` accepts, each weight lies in
`[0, 1]`; for a point it rejects, at least one weight is negative. -/
theorem barycentric_weights_correct (a b c p : Vec2) (w v u : ℚ)
    (h : get_barycentric_coords a b c p = some (w, v, u)) :
    w + v + u = 1 ∧
    (is_inside_triangle a b c p = true →
      (0 ≤ w ∧ w ≤ 1) ∧ (0 ≤ v ∧ v ≤ 1) ∧ (0 ≤ u ∧ u ≤ 1)) ∧
    (is_inside_triangle a b c p = false → w < 0 ∨ v < 0 ∨ u < 0) := by
  simp only [get_barycentric_coords] at h
  split at h
  case isTrue => exact absurd h (by simp)
  case isFalse hcond =>
    rw [Option.some_inj, Prod.mk.injEq, Prod.mk.injEq] at h
    obtain ⟨hw, hv, hu⟩ := h
    have hd0 : dot2 (sub2 b a) (sub2 b a) * dot2 (sub2 c a) (sub2 c a) -
        dot2 (sub2 b a) (sub2 c a) * dot2 (sub2 b a) (sub2 c a) ≠ 0 := by
      intro h0
      apply hcond
      rw [h0]
      norm_num
    simp only [sub2, dot2] at hd0 hw hv hu
    set DD := (b.x - a.x) * (c.y - a.y) - (b.y - a.y) * (c.x - a.x) with hDDdef
    set c0 := (b.x - a.x) * (p.y - a.y) - (b.y - a.y) * (p.x - a.x) with hc0def
    set c1 := (c.x - b.x) * (p.y - b.y) - (c.y - b.y) * (p.x - b.x) with hc1def
    set c2 := (a.x - c.x) * (p.y - c.y) - (a.y - c.y) * (p.x - c.x) with hc2def
    have hsum4 : c0 + c1 + c2 = DD := by
      rw [hc0def, hc1def, hc2def, hDDdef]
      ring
    have hd2 : DD * DD ≠ 0 := by
      have e : DD * DD =
          ((b.x - a.x) * (b.x - a.x) + (b.y - a.y) * (b.y - a.y)) *
            ((c.x - a.x) * (c.x - a.x) + (c.y - a.y) * (c.y - a.y)) -
          ((b.x - a.x) * (c.x - a.x) + (b.y - a.y) * (c.y - a.y)) *
            ((b.x - a.x) * (c.x - a.x) + (b.y - a.y) * (c.y - a.y)) := by
        rw [hDDdef]
        ring
      rw [e]
      exact hd0
    have hDD : DD ≠ 0 := mul_self_ne_zero.mp hd2
    have hwD : w * DD = c0 := by
      rw [← hw, hDDdef, hc0def]
      field_simp
      ring
    have hvD : v * DD = c2 := by
      rw [← hv, hDDdef, hc2def]
      field_simp
      ring
    have huD : u * DD = c1 := by
      rw [← hu, hDDdef, hc1def]
      field_simp
      ring
    have hsum1 : w + v + u = 1 := by
      have h2 : (w + v + u) * DD = 1 * DD := by
        rw [add_mul, add_mul, hwD, hvD, huD, one_mul]
        linarith
      exact mul_right_cancel₀ hDD h2
    have hins : is_inside_triangle a b c p = true ↔
        ((0 ≤ c0 ∧ 0 ≤ c1) ∧ 0 ≤ c2) ∨ ((c0 ≤ 0 ∧ c1 ≤ 0) ∧ c2 ≤ 0) := by
      simp only [is_inside_triangle, sub2, Bool.or_eq_true, Bool.and_eq_true,
        decide_eq_true_eq]
    clear hcond hw hv hu hd0 hd2
    refine ⟨hsum1, ?_, ?_⟩
    · intro hin
      rw [hins] at hin
      rcases hin with ⟨⟨h0, h1⟩, h2⟩ | ⟨⟨h0, h1⟩, h2⟩
      · have hDDpos : 0 < DD :=
          lt_of_le_of_ne (by linarith) (Ne.symm hDD)
        exact ⟨weight_bounds_pos w DD c0 c1 c2 hwD (by linarith) hDDpos h0 h1 h2,
          weight_bounds_pos v DD c2 c0 c1 hvD (by linarith) hDDpos h2 h0 h1,
          weight_bounds_pos u DD c1 c0 c2 huD (by linarith) hDDpos h1 h0 h2⟩
      · have hDDneg : DD < 0 :=
          lt_of_le_of_ne (by linarith) hDD
        exact ⟨weight_bounds_neg w DD c0 c1 c2 hwD (by linarith) hDDneg h0 h1 h2,
          weight_bounds_neg v DD c2 c0 c1 hvD (by linarith) hDDneg h2 h0 h1,
          weight_bounds_neg u DD c1 c0 c2 huD (by linarith) hDDneg h1 h0 h2⟩
    · intro hout
      have hnP : ¬(((0 ≤ c0 ∧ 0 ≤ c1) ∧ 0 ≤ c2) ∨ ((c0 ≤ 0 ∧ c1 ≤ 0) ∧ c2 ≤ 0)) := by
        intro hp
        have htrue := hins.mpr hp
        rw [hout] at htrue
        exact Bool.false_ne_true htrue
      obtain ⟨hnA, hnB⟩ := not_or.mp hnP
      have hneg : c0 < 0 ∨ c1 < 0 ∨ c2 < 0 := by
        by_contra hc
        push_neg at hc
        exact hnA ⟨⟨hc.1, hc.2.1⟩, hc.2.2⟩
      have hpos : 0 < c0 ∨ 0 < c1 ∨ 0 < c2 := by
        by_contra hc
        push_neg at hc
        exact hnB ⟨⟨hc.1, hc.2.1⟩, hc.2.2⟩
      rcases lt_or_gt_of_ne hDD with hDDneg | hDDpos
      · rcases hpos with hp0 | hp1 | hp2
        · exact Or.inl (by nlinarith)
        · exact Or.inr (Or.inr (by nlinarith))
        · exact Or.inr (Or.inl (by nlinarith))
      · rcases hneg with hn0 | hn1 | hn2
        · exact Or.inl (by nlinarith)
        · exact Or.inr (Or.inr (by nlinarith))
        · exact Or.inr (Or.inl (by nlinarith))

/-- Witness for C2: on the concrete triangle `(0,0)`, `(4,0)`, `(0,4)` the
barycentric solve at the interior point `(1, 1)` returns weights that sum to
1 and lie in `[0, 1]`. -/
theorem barycentric_weights_correct_witness :
    ((1 : ℚ)/4 + 1/4 + 1/2 = 1) ∧
    ((0 ≤ (1 : ℚ)/4 ∧ (1 : ℚ)/4 ≤ 1) ∧ (0 ≤ (1 : ℚ)/4 ∧ (1 : ℚ)/4 ≤ 1) ∧
      (0 ≤ (1 : ℚ)/2 ∧ (1 : ℚ)/2 ≤ 1)) := by
  have h := barycentric_weights_correct ⟨0, 0⟩ ⟨4, 0⟩ ⟨0, 4⟩ ⟨1, 1⟩
    (1/4) (1/4) (1/2) (by with_unfolding_all decide)
  exact ⟨h.1, h.2.1 (by with_unfolding_all decide)⟩

/-! ### C3 — barycentric ordering matches the interpolation helpers -/

theorem bary_at_vertex0 (a b c : Vec2) (t : ℚ × ℚ × ℚ)
    (h : get_barycentric_coords a b c a = some t) : t = (0, 0, 1) := by
  simp only [get_barycentric_coords] at h
  split at h
  · exact absurd h (by simp)
  · rw [Option.some_inj] at h
    rw [← h]
    simp [sub2, dot2, sub_self]

theorem bary_at_vertex1 (a b c : Vec2) (t : ℚ × ℚ × ℚ)
    (h : get_barycentric_coords a b c b = some t) : t = (0, 1, 0) := by
  simp only [get_barycentric_coords] at h
  split at h
  case isTrue => exact absurd h (by simp)
  case isFalse hcond =>
    rw [Option.some_inj] at h
    rw [← h]
    have hd0 : dot2 (sub2 b a) (sub2 b a) * dot2 (sub2 c a) (sub2 c a) -
        dot2 (sub2 b a) (sub2 c a) * dot2 (sub2 b a) (sub2 c a) ≠ 0 := by
      intro h0
      apply hcond
      rw [h0]
      norm_num
    simp only [sub2, dot2] at hd0 ⊢
    rw [Prod.mk.injEq, Prod.mk.injEq]
    refine ⟨?_, ?_, ?_⟩
    · rw [div_eq_zero_iff]
      exact Or.inl (by ring)
    · rw [div_eq_iff hd0, one_mul]
      ring
    · field_simp
      ring

theorem bary_at_vertex2 (a b c : Vec2) (t : ℚ × ℚ × ℚ)
    (h : get_barycentric_coords a b c c = some t) : t = (1, 0, 0) := by
  simp only [get_barycentric_coords] at h
  split at h
  case isTrue => exact absurd h (by simp)
  case isFalse hcond =>
    rw [Option.some_inj] at h
    rw [← h]
    have hd0 : dot2 (sub2 b a) (sub2 b a) * dot2 (sub2 c a) (sub2 c a) -
        dot2 (sub2 b a) (sub2 c a) * dot2 (sub2 b a) (sub2 c a) ≠ 0 := by
      intro h0
      apply hcond
      rw [h0]
      norm_num
    simp only [sub2, dot2] at hd0 ⊢
    rw [Prod.mk.injEq, Prod.mk.injEq]
    refine ⟨?_, ?_, ?_⟩
    · rw [div_eq_iff hd0, one_mul]
      ring
    · rw [div_eq_zero_iff]
      exact Or.inl (by ring)
    · field_simp
      ring

/-- C3: the `(w, v, u)` tuple produced by `get_barycentric_coords` is consumed
in the same vertex order by every `interpolate_*` helper: evaluated at vertex
`i`'s own screen position, the interpolated color, uv, and depth are exactly
vertex `i`'s color, uv, and `z` (the depth roundtrip `1/(1/z)` requiring a
nonzero `z`). -/
theorem bary_matches_interpolation (p0 p1 p2 : RasterPoint) :
    (∀ t, get_barycentric_coords p0.pos p1.pos p2.pos p0.pos = some t →
      interpolate_color p0 p1 p2 t = p0.color ∧
      interpolate_uv p0 p1 p2 t = p0.uv ∧
      (p0.z ≠ 0 → interpolate_depth p0 p1 p2 t = some p0.z)) ∧
    (∀ t, get_barycentric_coords p0.pos p1.pos p2.pos p1.pos = some t →
      interpolate_color p0 p1 p2 t = p1.color ∧
      interpolate_uv p0 p1 p2 t = p1.uv ∧
      (p1.z ≠ 0 → interpolate_depth p0 p1 p2 t = some p1.z)) ∧
    (∀ t, get_barycentric_coords p0.pos p1.pos p2.pos p2.pos = some t →
      interpolate_color p0 p1 p2 t = p2.color ∧
      interpolate_uv p0 p1 p2 t = p2.uv ∧
      (p2.z ≠ 0 → interpolate_depth p0 p1 p2 t = some p2.z)) := by
  refine ⟨fun t ht => ?_, fun t ht => ?_, fun t ht => ?_⟩
  · rw [bary_at_vertex0 _ _ _ _ ht]
    refine ⟨?_, ?_, fun hz => ?_⟩
    · simp [interpolate_color, add3, scale3]
    · simp [interpolate_uv, add2, scale2]
    · have hs : (1 : ℚ) * (1 / p0.z) + 0 * (1 / p1.z) + 0 * (1 / p2.z) = 1 / p0.z := by ring
      simp only [interpolate_depth, hs]
      rw [if_neg (one_div_ne_zero hz), one_div_one_div]
  · rw [bary_at_vertex1 _ _ _ _ ht]
    refine ⟨?_, ?_, fun hz => ?_⟩
    · simp [interpolate_color, add3, scale3]
    · simp [interpolate_uv, add2, scale2]
    · have hs : (0 : ℚ) * (1 / p0.z) + 1 * (1 / p1.z) + 0 * (1 / p2.z) = 1 / p1.z := by ring
      simp only [interpolate_depth, hs]
      rw [if_neg (one_div_ne_zero hz), one_div_one_div]
  · rw [bary_at_vertex2 _ _ _ _ ht]
    refine ⟨?_, ?_, fun hz => ?_⟩
    · simp [interpolate_color, add3, scale3]
    · simp [interpolate_uv, add2, scale2]
    · have hs : (0 : ℚ) * (1 / p0.z) + 0 * (1 / p1.z) + 1 * (1 / p2.z) = 1 / p2.z := by ring
      simp only [interpolate_depth, hs]
      rw [if_neg (one_div_ne_zero hz), one_div_one_div]

/-- Witness for C3: on the concrete screen triangle `(0,0)`, `(4,0)`, `(0,4)`
the barycentric tuple at vertex 0 is `(0,0,1)` and feeding it to the
interpolators returns vertex 0's color and depth. -/
theorem bary_matches_interpolation_witness :
    interpolate_color wRp0 wRp1 wRp2 (0, 0, 1) = wRp0.color ∧
    interpolate_depth wRp0 wRp1 wRp2 (0, 0, 1) = some wRp0.z :=
  ⟨((bary_matches_interpolation wRp0 wRp1 wRp2).1 (0, 0, 1)
      (by with_unfolding_all decide)).1,
   ((bary_matches_interpolation wRp0 wRp1 wRp2).1 (0, 0, 1)
      (by with_unfolding_all decide)).2.2 (by with_unfolding_all decide)⟩

/-! ### C6 — degenerate screen triangles produce no writes -/

theorem bary_none_of_degenerate (a b c p : Vec2)
    (h : (b.x - a.x) * (c.y - a.y) - (b.y - a.y) * (c.x - a.x) = 0) :
    get_barycentric_coords a b c p = none := by
  simp only [get_barycentric_coords]
  have hz : dot2 (sub2 b a) (sub2 b a) * dot2 (sub2 c a) (sub2 c a) -
      dot2 (sub2 b a) (sub2 c a) * dot2 (sub2 b a) (sub2 c a) = 0 := by
    simp only [sub2, dot2]
    linear_combination ((b.x - a.x) * (c.y - a.y) - (b.y - a.y) * (c.x - a.x)) * h
  rw [hz]
  norm_num

theorem rasterize_pixel_degenerate (camEye : Vec3) (light : Light)
    (t : RasterTriangle) (texture : Option Texture) (fb : FrameBuffer ℕ) (x y : ℤ)
    (h : (t.p1.pos.x - t.p0.pos.x) * (t.p2.pos.y - t.p0.pos.y) -
         (t.p1.pos.y - t.p0.pos.y) * (t.p2.pos.x - t.p0.pos.x) = 0) :
    rasterize_pixel camEye light t texture fb x y = fb := by
  simp only [rasterize_pixel]
  rw [bary_none_of_degenerate t.p0.pos t.p1.pos t.p2.pos _ h]
  simp [interpolate_depth]

/-- C6: a `RasterTriangle` whose three screen positions are collinear or
coincident (zero edge cross product, so the barycentric denominator is within
epsilon of zero at every sampled pixel) leaves the framebuffer — color and
depth buffers alike — completely unchanged under
`rasterize_colored_triangle`; the embedding is total, so no panic or
division-by-zero failure occurs on this path. -/
theorem rasterize_degenerate_unchanged (r : Renderer) (t : RasterTriangle)
    (texture : Option Texture)
    (h : (t.p1.pos.x - t.p0.pos.x) * (t.p2.pos.y - t.p0.pos.y) -
         (t.p1.pos.y - t.p0.pos.y) * (t.p2.pos.x - t.p0.pos.x) = 0) :
    rasterize_colored_triangle r t texture = r := by
  have hnest : ∀ (lo hi lo2 hi2 : ℤ) (fb : FrameBuffer ℕ),
      (intRange lo hi).foldl (fun fb y => (intRange lo2 hi2).foldl
        (fun fb x => rasterize_pixel r.camera.eye r.light t texture fb x y) fb) fb
        = fb := by
    intro lo hi lo2 hi2 fb
    exact foldl_fixed _ _ _ (fun yv _ fbv =>
      foldl_fixed _ _ _ (fun xv _ fb2 =>
        rasterize_pixel_degenerate r.camera.eye r.light t texture fb2 xv yv h))
  simp only [rasterize_colored_triangle]
  rw [hnest]

/-- Witness for C6: a concrete raster triangle with all three screen
positions coincident leaves a concrete renderer unchanged. -/
theorem rasterize_degenerate_unchanged_witness :
    ((wTriCoincident.p1.pos.x - wTriCoincident.p0.pos.x) *
        (wTriCoincident.p2.pos.y - wTriCoincident.p0.pos.y) -
      (wTriCoincident.p1.pos.y - wTriCoincident.p0.pos.y) *
        (wTriCoincident.p2.pos.x - wTriCoincident.p0.pos.x) = 0) ∧
    rasterize_colored_triangle wRenderer wTriCoincident none = wRenderer :=
  ⟨by with_unfolding_all decide,
   rasterize_degenerate_unchanged wRenderer wTriCoincident none
     (by with_unfolding_all decide)⟩

/-! ### C4 — backface culling boundary -/

/-- Amended C4 (strict inequality): a triangle whose backface dot product —
computed exactly as `is_backface_world_space` computes it, against the
hard-coded origin camera position — is strictly negative is discarded by
`render_colored_triangles` before any downstream stage, so it contributes
zero framebuffer writes. -/
theorem backface_culled_unchanged (r : Renderer) (t : Triangle) (model : Mat4)
    (texture : Option Texture) (h : backfaceDot t ⟨0, 0, 0⟩ model < 0) :
    render_colored_triangles r [t] model texture = r := by
  have hb : t.is_backface_world_space ⟨0, 0, 0⟩ model = true := by
    simp only [Triangle.is_backface_world_space, decide_eq_true_eq]
    exact h
  simp [render_colored_triangles, hb]

/-- Witness for the amended C4: a concrete triangle facing away from the
origin camera (dot strictly negative) is culled and the renderer is
unchanged. -/
theorem backface_culled_unchanged_witness :
    backfaceDot wTriBack ⟨0, 0, 0⟩ mat4_identity < 0 ∧
    render_colored_triangles wRenderer [wTriBack] mat4_identity none = wRenderer :=
  ⟨by with_unfolding_all decide,
   backface_culled_unchanged wRenderer wTriBack mat4_identity none
     (by with_unfolding_all decide)⟩

set_option maxHeartbeats 4000000 in
set_option maxRecDepth 100000 in
/-- Counterexample to C4 as stated: `wTriBoundary`'s backface dot product is
exactly `0` (so the claim's condition `dot ≤ 0` holds), yet
`render_colored_triangles` does not discard it — the code culls only on the
strict comparison `< 0` — and it writes pixels, changing the framebuffer. -/
theorem backface_boundary_not_culled :
    backfaceDot wTriBoundary ⟨0, 0, 0⟩ mat4_identity = 0 ∧
    (render_colored_triangles wRenderer [wTriBoundary] mat4_identity
        none).framebuffer ≠ wRenderer.framebuffer := by
  constructor
  · with_unfolding_all decide
  · with_unfolding_all decide

/-! ### C8 — toon shader formula and output range -/

/-- C8: `ToonShader::shade` computes exactly the spec's formula — the
texture-or-vertex base color times (ambient + three-band quantized diffuse +
Blinn-Phong specular), clamped per channel — and consequently every channel
of the result lies in `[0, 1]`. -/
theorem toon_shade_correct (sh : ToonShader) (data : FragmentData) :
    sh.shade data = toonShadeSpec sh.light data ∧
    (0 ≤ (sh.shade data).x ∧ (sh.shade data).x ≤ 1) ∧
    (0 ≤ (sh.shade data).y ∧ (sh.shade data).y ≤ 1) ∧
    (0 ≤ (sh.shade data).z ∧ (sh.shade data).z ≤ 1) := by
  have heq : sh.shade data = toonShadeSpec sh.light data := rfl
  refine ⟨heq, ?_, ?_, ?_⟩ <;> rw [heq] <;>
    simp only [toonShadeSpec, clamp01] <;>
    exact ⟨fclamp01_nonneg _, fclamp01_le_one _⟩

end RsRenderer
